import Mathlib

/-!
Verification of the NMM-import migration engine: manifest parsing, per-file
path resolution, the file transfer engine, category reconciliation and the
orchestrator of the import run, shallowly embedded from the TypeScript
sources (src/util/nmmVirtualConfigParser.ts, src/util/modFileImport.ts and
the orchestrator module).
-/

deriving instance DecidableEq for Except

namespace NmmImport

/-! JavaScript / Node primitives used by the sources, modelled on `String`
(posix flavour: the path separator is the slash character). -/

/-- JS `String.prototype.indexOf`: the index of the first occurrence of `pat`
as a substring of `s`, `none` standing for the JS result `-1`. An empty
pattern matches at index 0, as in JS. -/
def jsIndexOf (s pat : String) : Option Nat :=
  (List.range (s.length + 1)).find? (fun i => List.isPrefixOf pat.data (s.data.drop i))

/-- JS `String.prototype.substring(start)` with `start` clamped to the string
length (a start beyond the end yields the empty string). -/
def jsSubstringFrom (s : String) (start : Nat) : String :=
  String.mk (s.data.drop start)

/-- Node `path.isAbsolute`, posix rule: the path starts with the separator. -/
def jsIsAbsolute (s : String) : Bool :=
  match s.data with
  | '/' :: _ => true
  | _ => false

/-- Node `path.join` of two parts, simplified: parts are glued with one
separator and no `.`/`..` normalisation is performed (none of the paths this
code joins need it). -/
def pjoin (a b : String) : String :=
  if a = "" then b else if b = "" then a else a ++ "/" ++ b

/-- Auxiliary for `pathSegments`: structural split of a character list at the
separators, with the reversed current segment as accumulator. -/
def splitSegsAux : List Char → List Char → List String
  | [], acc => [String.mk acc.reverse]
  | c :: rest, acc =>
    if c = '/' then String.mk acc.reverse :: splitSegsAux rest []
    else splitSegsAux rest (c :: acc)

/-- Slash-separated segments of a path (the result of `split(sep)`). -/
def pathSegments (s : String) : List String :=
  splitSegsAux s.data []

/-- Node `path.dirname`, posix rule: everything before the last separator. -/
def pdirname (s : String) : String :=
  match (pathSegments s).dropLast with
  | [] => "."
  | [""] => "/"
  | ps => String.intercalate "/" ps

/-- Node `path.basename` without an extension argument: the last
slash-separated component. -/
def pbasename (s : String) : String :=
  ((pathSegments s).getLast?).getD ""

/-- Node `path.extname`: the suffix of the basename from its last dot, unless
that dot is the leading character of the basename. -/
def pextname (s : String) : String :=
  let b := pbasename s
  match (List.range b.length).reverse.find?
      (fun i => decide (0 < i) && (b.data.get? i == some '.')) with
  | some i => String.mk (b.data.drop i)
  | none => ""

/-- Node `path.basename(p, ext)`: the basename with the suffix `ext` stripped
when it is a proper suffix. -/
def pbasenameExt (s ext : String) : String :=
  let b := pbasename s
  if List.isSuffixOf ext.data b.data ∧ ext.length < b.length then
    String.mk (b.data.take (b.length - ext.length))
  else b

/-- Decimal digit run of JS `parseInt`: the maximal leading run of decimal
digits, `none` (NaN) when it is empty. -/
def digitsVal (cs : List Char) : Option Nat :=
  let ds := cs.takeWhile Char.isDigit
  if ds = [] then none
  else some (ds.foldl (fun acc c => acc * 10 + (c.toNat - 48)) 0)

/-- JS `parseInt(s, 10)`: skip leading whitespace, read an optional sign, then
the maximal run of decimal digits; NaN (`none`) when that run is empty. -/
def jsParseInt (s : String) : Option Int :=
  let t := s.data.dropWhile (fun c => c == ' ' || c == '\t' || c == '\n' || c == '\r')
  match t with
  | '-' :: rest => (digitsVal rest).map (fun n => -(n : Int))
  | '+' :: rest => (digitsVal rest).map (fun n => (n : Int))
  | rest => (digitsVal rest).map (fun n => (n : Int))

/-- JS `parseInt(attr, 10)` applied to a `getAttribute` result: a missing
attribute is `null`, which `parseInt` coerces to the string "null", whose
parse is NaN. -/
def jsParseIntAttr : Option String → Option Int
  | none => none
  | some s => jsParseInt s

/-- The parser expression `parseInt(modInfo.getAttribute('downloadId'), 10) ||
undefined` (nmmVirtualConfigParser.ts line 73): NaN and 0 are falsy, so both
collapse to `undefined`. -/
def downloadIdOfAttr (attr : Option String) : Option Int :=
  match jsParseIntAttr attr with
  | none => none
  | some v => if v = 0 then none else some v

/-! Data model (src/types/nmmEntries.ts). -/

/-- IFileEntry: one `fileLink` of the manifest. -/
structure IFileEntry where
  fileSource : String
  fileDestination : String
  isActive : Bool
  filePriority : Int
deriving Repr, DecidableEq

/-- IModEntry: one mod record of the manifest, as produced by the parser and
optionally enriched by the orchestrator. -/
structure IModEntry where
  nexusId : String
  vortexId : String
  downloadId : Option Int
  modName : String
  modFilename : String
  archivePath : String
  modVersion : String
  archiveMD5 : Option String
  importFlag : Bool
  isAlreadyManaged : Bool
  fileEntries : List IFileEntry
  archiveId : Option String := none
  categoryId : Option String := none
  customName : Option String := none
deriving Repr, DecidableEq

/-- Per-file root-path resolution inside `transferUnpackedMod`
(src/unnamed/part_001, lines 65-81). A non-absolute `fileDestination` is used
verbatim. For an absolute one the source path is searched — substring search,
JS `String.indexOf` — for the mod display name and then, when the name is
absent and `downloadId` is truthy (present and nonzero), for the decimal
download id; on a match the destination is the source from just past the
match plus one further (separator) character. `none` models the `undefined`
that triggers the `DataInvalid` rejection. -/
def resolveRootFilePath (mod : IModEntry) (file : IFileEntry) : Option String :=
  if jsIsAbsolute file.fileDestination = false then
    some file.fileDestination
  else
    match jsIndexOf file.fileSource mod.modName with
    | some i => some (jsSubstringFrom file.fileSource (i + mod.modName.length + 1))
    | none =>
      match mod.downloadId with
      | some d =>
        if d = 0 then none
        else
          match jsIndexOf file.fileSource (toString d) with
          | some i => some (jsSubstringFrom file.fileSource (i + (toString d).length + 1))
          | none => none
      | none => none

/-! File transfer engine (src/unnamed/part_001). Filesystem effects are
modelled by an environment of result functions; bluebird promise chains
become explicit `Except` threading. Per-file operations run through
`Promise.map`; the embedding processes them in declaration order, which is
observationally equivalent here because every per-file effect is keyed by the
file and errors are only compared per file or as sets of mods. -/

/-- JsError: a rejected promise value; `code` is the Node error code when the
error carries one (fs errors), `none` otherwise (plain `Error` subclasses such
as `util.DataInvalid`). -/
structure JsError where
  code : Option String
  message : String
deriving Repr, DecidableEq

/-- FsEnv: outcome of each filesystem operation the engine performs. `none`
means the operation resolves; `some e` means it rejects with `e`. `statAsync`
resolves with the file size. -/
structure FsEnv where
  copyAsync : String → String → Option JsError
  renameAsync : String → String → Option JsError
  ensureDirAsync : String → Option JsError
  removeAsync : String → Option JsError
  statAsync : String → Except JsError Nat

/-- The `operation` local of `transferUnpackedMod`: copy when the source is
kept, rename (move) otherwise. -/
def operation (env : FsEnv) (keepSource : Bool) : String → String → Option JsError :=
  if keepSource then env.copyAsync else env.renameAsync

/-- TransferState: the `hasTransferredFiles` flag and `errors` array the
per-file closures mutate. -/
structure TransferState where
  hasTransferredFiles : Bool
  errors : List String
deriving Repr, DecidableEq

/-- Stable insertion into a length-sorted list (insertion goes after entries
of equal length, preserving encounter order as the stable JS sort does). -/
def insertByLen (x : String) : List String → List String
  | [] => [x]
  | y :: ys => if y.length ≤ x.length then y :: insertByLen x ys else x :: y :: ys

/-- JS `Array.from(set).sort(byLength)`: a stable sort by string length. -/
def sortByLen (l : List String) : List String :=
  l.foldl (fun acc x => insertByLen x acc) []

/-- Destination directory set of `transferUnpackedMod` (part_001 lines
40-44): the mod root plus the parent directory of every declared
`fileDestination`, deduplicated in insertion order, then sorted by length. -/
def destDirectories (destPath : String) (files : List IFileEntry) : List String :=
  sortByLen ((destPath :: files.map (fun f => pdirname (pjoin destPath f.fileDestination))).eraseDups)

/-- Directory creation phase: `Promise.map(dirs, ensureDirAsync)`; the first
rejection rejects the phase. -/
def ensureDirs (env : FsEnv) : List String → Option JsError
  | [] => none
  | d :: rest =>
    match env.ensureDirAsync d with
    | some e => some e
    | none => ensureDirs env rest

/-- Message of the `util.DataInvalid` rejection raised when no root path can
be identified. -/
def dataInvalidMessage : String := "Unable to identify mod's root path"

/-- One file of the transfer loop (part_001 lines 49-102), kept faithful to a
quirk of the source: in
`return cond ? operation(...) : Promise.reject(new util.DataInvalid(...)).tap(...).catch(...)`
the `.tap`/`.catch` chain binds to the `Promise.reject(...)` branch only
(member access binds tighter than the conditional operator), so a failure of
the actual copy/rename is not caught here — it rejects the whole transfer —
and a success does not set `hasTransferredFiles`. Only the `DataInvalid`
rejection flows through the handlers; `.tap` is skipped on a rejection, and in
the `.catch` the error has no `code` equal to ENOENT, so the fallback-root
retry written there is unreachable and the handler records the error. -/
def transferFileStep (env : FsEnv) (keepSource : Bool)
    (nmmVirtualPath destPath : String) (mod : IModEntry)
    (st : TransferState) (file : IFileEntry) : Except JsError TransferState :=
  match resolveRootFilePath mod file with
  | some rootFilePath =>
    match operation env keepSource (pjoin nmmVirtualPath file.fileSource)
        (pjoin destPath rootFilePath) with
    | none => .ok st
    | some e => .error e
  | none =>
    .ok { st with errors := st.errors ++ [file.fileSource ++ " - " ++ dataInvalidMessage] }

/-- The `Promise.map` over the file entries, threading the mutable state. -/
def transferFiles (env : FsEnv) (keepSource : Bool)
    (nmmVirtualPath destPath : String) (mod : IModEntry) :
    TransferState → List IFileEntry → Except JsError TransferState
  | st, [] => .ok st
  | st, f :: rest =>
    match transferFileStep env keepSource nmmVirtualPath destPath mod st f with
    | .error e => .error e
    | .ok st2 => transferFiles env keepSource nmmVirtualPath destPath mod st2 rest

/-- Cleanup-error prefix of part_001 lines 107-108. -/
def cleanupMessage (e : JsError) : String :=
  "Failed to clean-up directories for failed mod import" ++ " - " ++ e.message

/-- Final step of `transferUnpackedMod` (part_001 lines 104-111): when no
file was transferred, remove the mod destination directory; a removal failure
is itself recorded as an error and the call still resolves with the
accumulated result. -/
def finishTransfer (env : FsEnv) (destPath : String) (st : TransferState) : TransferState :=
  if st.hasTransferredFiles = false then
    match env.removeAsync destPath with
    | none => st
    | some e => { st with errors := st.errors ++ [cleanupMessage e] }
  else st

/-- `transferUnpackedMod` (src/unnamed/part_001, lines 28-112): ensure the
destination directories, run the per-file loop, then the cleanup step. The
`nmmLinkPath` argument (fallback source root) is threaded for fidelity even
though, per the quirk documented at `transferFileStep`, the handler that
would consult it is unreachable. -/
def transferUnpackedMod (env : FsEnv) (mod : IModEntry)
    (nmmVirtualPath nmmLinkPath installPath : String) (keepSource : Bool) :
    Except JsError TransferState :=
  let destPath := pjoin installPath mod.vortexId
  match ensureDirs env (destDirectories destPath mod.fileEntries) with
  | some e => .error e
  | none =>
    match transferFiles env keepSource nmmVirtualPath destPath mod
        { hasTransferredFiles := false, errors := [] } mod.fileEntries with
    | .error e => .error e
    | .ok st => .ok (finishTransfer env destPath st)

/-! Manifest parser (src/util/nmmVirtualConfigParser.ts, current version:
lines 1-134 of the file). The parsed XML document is embedded as the data the
parser queries from it. -/

/-- ModInfo: one `modInfo` element with the attributes the parser reads.
`downloadId` is kept as the raw optional attribute because the code feeds it
through `parseInt`; the other attributes are modelled as present (the claims
under study never exercise their `null` case). -/
structure ModInfo where
  modId : String
  downloadId : Option String
  modName : String
  modFileName : String
  modFilePath : String
  fileVersion : String
deriving Repr, DecidableEq

/-- NmmManifest: the queried shape of a parsed VirtualModConfig.xml document.
`activator` is the first `virtualModActivator` element: `none` when absent,
`some v` when present with `fileVersion` attribute `v` (`none` for a missing
attribute, as `getAttribute` returns `null`). -/
structure NmmManifest where
  activator : Option (Option String)
  modInfos : List ModInfo
deriving Repr, DecidableEq

/-- ParseErrorKind: the four rejection classes of the parser. -/
inductive ParseErrorKind
  | NotFound
  | Malformed
  | Unsupported
  | Empty
deriving Repr, DecidableEq

/-- NmmParseError: the `ParseError` the parser rejects with, classified. -/
structure NmmParseError where
  kind : ParseErrorKind
  message : String
deriving Repr, DecidableEq

/-- Message of the Malformed rejection (parser lines 52-55). -/
def malformedMessage : String :=
  "The selected folder does not contain a valid VirtualModConfig.xml file."

/-- Message of the Unsupported rejection (parser lines 57-61); the two JS
string literals are concatenated without a space, as in the source. -/
def unsupportedMessage : String :=
  "The selected folder contains an older VirtualModConfig.xml file," ++
  "you need to upgrade your NMM before proceeding with the mod import."

/-- Message of the Empty rejection (parser lines 63-67). -/
def emptyMessage : String :=
  "The selected folder contains an empty VirtualModConfig.xml file."

/-- ParserEnv: the effectful collaborators of the per-record work. -/
structure ParserEnv where
  /-- whether `fs.statAsync` resolves on a path (the `useOldPath` probe). -/
  statOk : String → Bool
  /-- `modmeta.genHash`: the md5 digest on success, `none` on failure. -/
  genHash : String → Option String
  /-- `util.deriveInstallName` from vortex-api, an opaque pure collaborator. -/
  deriveInstallName : String → String
  /-- ids of the mods already managed by Vortex (the `modListSet`). -/
  modListSet : List String

/-- One `modInfo` record (parser lines 69-131). The `statAsync` probe only
sets `useOldPath`, which feeds `adjustRealPath`, which is only used by the
commented-out `fileEntries` block — so the entry carries no file entries and
the probe result is immaterial to the output. The hash chain ends in
`.catch(() => (res.archiveMD5 = null)).then(() => res)`: a hash failure
leaves the hash unset and the entry is still produced. -/
def parseRecord (env : ParserEnv) (virtualInstallPath : String) (m : ModInfo) : IModEntry :=
  let modFilename := m.modFileName
  let archiveName := pbasenameExt modFilename (pextname modFilename)
  let vortexId := env.deriveInstallName archiveName
  { nexusId := m.modId
    vortexId := vortexId
    downloadId := downloadIdOfAttr m.downloadId
    modName := m.modName
    modFilename := modFilename
    archivePath := m.modFilePath
    modVersion := m.fileVersion
    importFlag := true
    archiveMD5 := env.genHash (pjoin m.modFilePath modFilename)
    isAlreadyManaged := env.modListSet.contains vortexId
    fileEntries := [] }

/-- `parseModEntries` (parser lines 40-132): the three manifest-level sanity
checks in source order — absent root element, unsupported `fileVersion`
attribute, empty record list — then one entry per record. -/
def parseModEntries (env : ParserEnv) (virtualInstallPath : String)
    (doc : NmmManifest) : Except NmmParseError (List IModEntry) :=
  match doc.activator with
  | none => .error { kind := .Malformed, message := malformedMessage }
  | some fv =>
    if fv ≠ some "0.3.0.0" then
      .error { kind := .Unsupported, message := unsupportedMessage }
    else if doc.modInfos = [] then
      .error { kind := .Empty, message := emptyMessage }
    else
      .ok (doc.modInfos.map (parseRecord env virtualInstallPath))

/-! Category reconciliation (src/unnamed/part_000, lines 82-103). The Vortex
category table is a Redux subtree: a JS object in key insertion order with
unique keys, embedded as an association list. `importMods` captures
`state.persistent.categories[gameId]` once; Redux reducers produce fresh
state objects, so dispatches never show through that captured snapshot. -/

/-- CategoryRow: the value stored per category id. -/
structure CategoryRow where
  name : String
  order : Int
  parentCategory : Option String
deriving Repr, DecidableEq

/-- CategoryTable: a JS object keyed by category id, in insertion order. -/
abbrev CategoryTable := List (String × CategoryRow)

/-- Key lookup (`vortexCategories[key]`): the value stored at the key (keys
are unique in a Redux store object, so the first match is the match). -/
def lookupCat : CategoryTable → String → Option CategoryRow
  | [], _ => none
  | kv :: rest, k => if kv.1 = k then some kv.2 else lookupCat rest k

/-- Effect on the table of a dispatched `actions.setCategory`: replace the
value at an existing key in place, or append a new key — JS object update
order semantics. -/
def setCat : CategoryTable → String × CategoryRow → CategoryTable
  | [], d => [d]
  | kv :: rest, d => if kv.1 = d.1 then d :: rest else kv :: setCat rest d

/-- Application of a list of `setCategory` dispatches to the store table. -/
def applyDispatches (t : CategoryTable) (ds : List (String × CategoryRow)) : CategoryTable :=
  ds.foldl setCat t

/-- Fuelled version of the id scan (`while (vortexCategories[...nmm_id...]
!== undefined) ++id`). -/
def firstFreeAux (snapshot : CategoryTable) : Nat → Nat → Nat
  | 0, id => id
  | fuel + 1, id =>
    if lookupCat snapshot ("nmm_" ++ toString id) = none then id
    else firstFreeAux snapshot fuel (id + 1)

/-- Smallest id from 1 whose `nmm_` key is unused in the snapshot; among the
first `length + 1` candidates at least one key is free, so that much fuel
suffices for the scan to stop at the first free id. -/
def firstFreeId (snapshot : CategoryTable) : Nat :=
  firstFreeAux snapshot (snapshot.length + 1) 1

/-- Row dispatched for the lazily created import root category. -/
def nmmRootRow : CategoryRow :=
  { name := "Imported from NMM", order := 0, parentCategory := none }

/-- `makeVortexCategory` (part_000 lines 84-103) as a function of the
snapshot captured at the start of `importMods` and of the requested name:
first key whose row carries the name, else allocation of the next free
`nmm_` id (plus the root when the snapshot lacks it). Returns the id handed
back together with the `setCategory` dispatches emitted. -/
def makeVortexCategory (snapshot : CategoryTable) (name : String) :
    String × List (String × CategoryRow) :=
  match snapshot.find? (fun kv => kv.2.name == name) with
  | some kv => (kv.1, [])
  | none =>
    let rootDispatches :=
      if lookupCat snapshot "nmm_0" = none then [("nmm_0", nmmRootRow)] else []
    let id := firstFreeId snapshot
    ("nmm_" ++ toString id,
      rootDispatches ++
        [("nmm_" ++ toString id,
          { name := name, order := 0, parentCategory := some "nmm_0" })])

/-- A sequence of category reconciliations within one import run: every call
reads the same captured snapshot while the dispatches accumulate into the
store (initially equal to the snapshot). Returns the ids in call order and
the final store table. -/
def runReconciliations (snapshot : CategoryTable) (names : List String) :
    List String × CategoryTable :=
  names.foldl
    (fun acc nm =>
      let r := makeVortexCategory snapshot nm
      (acc.1 ++ [r.1], applyDispatches acc.2 r.2))
    ([], snapshot)

/-! Import orchestrator (src/unnamed/part_000, `importMods`, lines 68-150).
Trace logging and the final profile registration are pure bookkeeping and
elided; the `mods` list stands for `modsEx`, the entries after `enhance`
(which only fills `archiveId`, `categoryId` and `customName`). -/

/-- Result in JS of `undefined > 0`: the `failed.length > 0` guard of
part_000 line 118 reads a `length` property that does not exist on the
`{hasTransferredFiles, errors}` object `transferUnpackedMod` resolves with,
and a comparison against `undefined` is always false. -/
def jsUndefinedGtZero : Bool := false

/-- Per-mod work of `importMods` (part_000 lines 113-137): transfer the
unpacked files, then — when requested — stat the archive, register it and
copy it to the download store, with the whole archive chain guarded by one
`catch` that records `mod.modFilename`. -/
def importModStep (env : FsEnv)
    (sourcePath alternateSourcePath installPath downloadPath : String)
    (transferArchives : Bool) (errs : List String) (mod : IModEntry) :
    Except JsError (List String) :=
  match transferUnpackedMod env mod sourcePath alternateSourcePath installPath true with
  | .error e => .error e
  | .ok _failed =>
    let errs := if jsUndefinedGtZero then errs ++ [mod.modName] else errs
    if transferArchives then
      let archivePath := pjoin mod.archivePath mod.modFilename
      match env.statAsync archivePath with
      | .ok _ =>
        match env.copyAsync archivePath (pjoin downloadPath (pbasename archivePath)) with
        | none => .ok errs
        | some _ => .ok (errs ++ [mod.modFilename])
      | .error _ => .ok (errs ++ [mod.modFilename])
    else .ok errs

/-- `Promise.mapSeries` over the selected mods, threading the `errors`
array. -/
def importModsList (env : FsEnv)
    (sourcePath alternateSourcePath installPath downloadPath : String)
    (transferArchives : Bool) :
    List String → List IModEntry → Except JsError (List String)
  | errs, [] => .ok errs
  | errs, mod :: rest =>
    match importModStep env sourcePath alternateSourcePath installPath downloadPath
        transferArchives errs mod with
    | .error e => .error e
    | .ok errs2 =>
      importModsList env sourcePath alternateSourcePath installPath downloadPath
        transferArchives errs2 rest

/-- `importMods` (part_000 lines 68-150), reduced to its observable result:
the list of strings pushed onto `errors`, returned after all mods are
processed. -/
def importMods (env : FsEnv)
    (sourcePath alternateSourcePath installPath downloadPath : String)
    (transferArchives : Bool) (mods : List IModEntry) :
    Except JsError (List String) :=
  importModsList env sourcePath alternateSourcePath installPath downloadPath
    transferArchives [] mods

/-! Claim-side vocabulary: the segment reading of path resolution used by the
specification text, for comparison with the substring matching the code
performs. -/

/-- Occurrence of a name as a whole slash-separated path segment. -/
def occursAsSegment (name src : String) : Prop :=
  name ∈ pathSegments src

/-- Destination under the specification reading: the remainder of the source
path after its first segment equal to the name. -/
def remainderAfterSegment (name src : String) : Option String :=
  match (pathSegments src).findIdx? (fun seg => seg == name) with
  | some i => some (String.intercalate "/" ((pathSegments src).drop (i + 1)))
  | none => none

/-! Concrete fixtures used by individual claims. -/

/-- File link with an absolute destination whose source contains the mod name
both as an early plain substring and later as a whole segment. -/
def c1File : IFileEntry :=
  { fileSource := "textures/tex/a.dds", fileDestination := "/data/a.dds",
    isActive := true, filePriority := 0 }

/-- Mod whose display name "tex" occurs as the second segment of the source
of `c1File` but already at index 0 as a plain substring. -/
def c1Mod : IModEntry :=
  { nexusId := "1", vortexId := "m", downloadId := none, modName := "tex",
    modFilename := "tex.7z", archivePath := "arch", modVersion := "",
    archiveMD5 := none, importFlag := true, isAlreadyManaged := false,
    fileEntries := [c1File] }

/-- File link with a relative destination (modern layout). -/
def relFile : IFileEntry :=
  { fileSource := "Foo/textures/a.dds", fileDestination := "textures/a.dds",
    isActive := true, filePriority := 0 }

/-- Mod owning `relFile`, display name "Foo". -/
def fooMod : IModEntry :=
  { nexusId := "1", vortexId := "foo", downloadId := some 123, modName := "Foo",
    modFilename := "foo.7z", archivePath := "arch", modVersion := "",
    archiveMD5 := none, importFlag := true, isAlreadyManaged := false,
    fileEntries := [relFile] }

/-- Scenario B file link: absolute destination, source stored under the
download-id folder of NMM 0.70, so the owning mod's display name "Foo" does
not occur in the source at all. -/
def scenarioBFile : IFileEntry :=
  { fileSource := "DownloadId123/textures/a.dds", fileDestination := "/abs/a.dds",
    isActive := true, filePriority := 0 }

/-- An ENOENT filesystem rejection. -/
def enoentError : JsError :=
  { code := some "ENOENT", message := "no such file or directory" }

/-- Filesystem in which the primary root lacks `relFile` (copying from under
"virt" rejects with ENOENT) while every other operation — the fallback root
"link" included — succeeds. -/
def c7Env : FsEnv :=
  { copyAsync := fun src _ => if src = pjoin "virt" relFile.fileSource then some enoentError else none
    renameAsync := fun _ _ => none
    ensureDirAsync := fun _ => none
    removeAsync := fun _ => none
    statAsync := fun _ => .ok 0 }

/-- File link with an absolute destination whose source contains neither the
display name "My Mod" nor any download id. -/
def c9File : IFileEntry :=
  { fileSource := "somewhere/a.dds", fileDestination := "/abs/a.dds",
    isActive := true, filePriority := 0 }

/-- Mod without a download id whose single file cannot be root-resolved, so
its transfer records one per-file error. -/
def c9Mod : IModEntry :=
  { nexusId := "1", vortexId := "mymod", downloadId := none, modName := "My Mod",
    modFilename := "mymod.7z", archivePath := "arch", modVersion := "",
    archiveMD5 := none, importFlag := true, isAlreadyManaged := false,
    fileEntries := [c9File] }

/-- Filesystem in which every transfer operation succeeds but `statAsync`
rejects, so every archive transfer fails. -/
def c9Env : FsEnv :=
  { copyAsync := fun _ _ => none
    renameAsync := fun _ _ => none
    ensureDirAsync := fun _ => none
    removeAsync := fun _ => none
    statAsync := fun _ => .error enoentError }

/-- Filesystem in which every operation succeeds. -/
def allOkEnv : FsEnv :=
  { copyAsync := fun _ _ => none
    renameAsync := fun _ _ => none
    ensureDirAsync := fun _ => none
    removeAsync := fun _ => none
    statAsync := fun _ => .ok 0 }

/-- Parser environment in which hashing always fails and the other
collaborators are trivial. -/
def hashFailParserEnv : ParserEnv :=
  { statOk := fun _ => true, genHash := fun _ => none,
    deriveInstallName := fun s => s, modListSet := [] }

/-- One well-formed manifest record. -/
def sampleModInfo : ModInfo :=
  { modId := "5", downloadId := some "123", modName := "Foo",
    modFileName := "foo.7z", modFilePath := "arch", fileVersion := "1.0" }

/-- Manifest carrying `sampleModInfo` under the supported schema version. -/
def sampleManifest : NmmManifest :=
  { activator := some (some "0.3.0.0"), modInfos := [sampleModInfo] }

/-! Theorems. -/

/-- Auxiliary: a successful `jsIndexOf` is an occurrence of the pattern as a
substring at an index within the string. -/
theorem jsIndexOf_spec (s pat : String) (i : Nat)
    (h : jsIndexOf s pat = some i) :
    i ≤ s.data.length ∧ ∃ t, pat.data ++ t = s.data.drop i := by
  unfold jsIndexOf at h
  refine ⟨?_, ?_⟩
  · have hm := List.mem_of_find?_eq_some h
    have hi := List.mem_range.mp hm
    exact Nat.lt_succ_iff.mp hi
  · have hp := List.find?_some h
    exact List.isPrefixOf_iff_prefix.mp (by simpa using hp)

/-- C1 (counterexample): the claim resolves by path segment, the code by
first substring occurrence. With mod name "tex" and source
"textures/tex/a.dds" the name occurs as a whole segment with remainder
"a.dds", but the code matches the substring "tex" at index 0 inside
"textures" and resolves to "ures/tex/a.dds". -/
theorem c1_segment_rule_counterexample :
    jsIsAbsolute c1File.fileDestination = true ∧
    occursAsSegment c1Mod.modName c1File.fileSource ∧
    remainderAfterSegment c1Mod.modName c1File.fileSource = some "a.dds" ∧
    resolveRootFilePath c1Mod c1File = some "ures/tex/a.dds" ∧
    resolveRootFilePath c1Mod c1File ≠
      remainderAfterSegment c1Mod.modName c1File.fileSource := by
  unfold occursAsSegment
  refine ⟨rfl, by decide, by decide, by decide, by decide⟩

/-- Auxiliary: when `jsIndexOf` locates a pattern at index i of a string and
the occurrence is immediately followed by a separator, the string decomposes
as prefix ++ pattern ++ separator ++ rest, with the rest being exactly the
characters past the separator. -/
theorem substring_sep_decomposition (s pat : String) (i : Nat)
    (hidx : jsIndexOf s pat = some i)
    (hsep : s.data.get? (i + pat.length) = some '/') :
    s.data = s.data.take i ++ pat.data ++ '/' :: s.data.drop (i + pat.length + 1) := by
  obtain ⟨hle, t, ht⟩ := jsIndexOf_spec _ _ _ hidx
  have hlen : pat.length = pat.data.length := rfl
  have htake : (s.data.take i).length = i := by
    rw [List.length_take]; omega
  have hs : s.data = s.data.take i ++ (pat.data ++ t) := by
    conv_lhs => rw [← List.take_append_drop i s.data]
    rw [ht]
  have h1 : (pat.data ++ t).get? pat.length = some '/' := by
    have h0 := hsep
    rw [hs, List.get?_append_right (by omega), htake] at h0
    simpa using h0
  have h2 : t.get? 0 = some '/' := by
    rw [hlen, List.get?_append_right (Nat.le_refl _), Nat.sub_self] at h1
    exact h1
  obtain ⟨c, t', rfl⟩ : ∃ c t', t = c :: t' := by
    cases t with
    | nil => simp at h2
    | cons c t' => exact ⟨c, t', rfl⟩
  have hc : c = '/' := by simpa using h2
  subst hc
  have hd : s.data.drop (i + pat.length + 1) = t' := by
    rw [hs]
    rw [show s.data.take i ++ (pat.data ++ '/' :: t') =
      (s.data.take i ++ pat.data ++ ['/']) ++ t' by simp]
    rw [List.drop_left' (by simp [htake]; omega)]
  rw [hd]
  conv_lhs => rw [hs]
  simp [List.append_assoc]

/-- C1 (amended): for a file link with an absolute destination the engine
matches by first substring occurrence, not by path segment. First prong: the
mod display name occurs in the source (first occurrence at index i) followed
by a separator, and the resolved destination is exactly the tail after that
separator — the source decomposes as prefix ++ name ++ "/" ++ destination.
Second prong: the name does not occur at all, the mod has a nonzero download
id whose decimal string occurs (first occurrence at index i) followed by a
separator — as in Scenario B, "DownloadId123/textures/a.dds" with id 123,
where "123" is a suffix of the first segment — and the destination is the
tail after that separator, the source decomposing the same way around the id
string. -/
theorem c1_resolution_after_first_occurrence (mod : IModEntry) (file : IFileEntry)
    (habs : jsIsAbsolute file.fileDestination = true) :
    (∀ i, jsIndexOf file.fileSource mod.modName = some i →
      file.fileSource.data.get? (i + mod.modName.length) = some '/' →
      ∃ d, resolveRootFilePath mod file = some d ∧
        file.fileSource.data =
          file.fileSource.data.take i ++ mod.modName.data ++ '/' :: d.data) ∧
    (∀ i n, jsIndexOf file.fileSource mod.modName = none →
      mod.downloadId = some n → ¬ n = 0 →
      jsIndexOf file.fileSource (toString n) = some i →
      file.fileSource.data.get? (i + (toString n).length) = some '/' →
      ∃ d, resolveRootFilePath mod file = some d ∧
        file.fileSource.data =
          file.fileSource.data.take i ++ (toString n).data ++ '/' :: d.data) := by
  constructor
  · intro i hidx hsep
    refine ⟨jsSubstringFrom file.fileSource (i + mod.modName.length + 1), ?_, ?_⟩
    · simp [resolveRootFilePath, habs, hidx]
    · exact substring_sep_decomposition _ _ _ hidx hsep
  · intro i n hname hdl hn hidx hsep
    refine ⟨jsSubstringFrom file.fileSource (i + (toString n).length + 1), ?_, ?_⟩
    · simp [resolveRootFilePath, habs, hname, hdl, hn, hidx]
    · exact substring_sep_decomposition _ _ _ hidx hsep

/-- C1 (witness for the amended theorem): the name prong at source
"Foo/textures/a.dds" with name "Foo" at index 0, and the download-id prong at
Scenario B — source "DownloadId123/textures/a.dds", name "Foo" absent, id 123
matched at index 10 — which resolves to "textures/a.dds". -/
theorem c1_resolution_after_first_occurrence_witness :
    (∃ d, resolveRootFilePath fooMod (IFileEntry.mk "Foo/textures/a.dds" "/abs/a.dds" true 0) = some d ∧
      ("Foo/textures/a.dds" : String).data =
        ("Foo/textures/a.dds" : String).data.take 0 ++ ("Foo" : String).data ++ '/' :: d.data) ∧
    (∃ d, resolveRootFilePath fooMod scenarioBFile = some d ∧
      ("DownloadId123/textures/a.dds" : String).data =
        ("DownloadId123/textures/a.dds" : String).data.take 10 ++
          (toString (123 : Int)).data ++ '/' :: d.data) ∧
    resolveRootFilePath fooMod scenarioBFile = some "textures/a.dds" :=
  ⟨(c1_resolution_after_first_occurrence fooMod
      (IFileEntry.mk "Foo/textures/a.dds" "/abs/a.dds" true 0) (by decide)).1
      0 (by decide) (by decide),
   (c1_resolution_after_first_occurrence fooMod scenarioBFile (by decide)).2
      10 123 (by decide) rfl (by decide) (by decide) (by decide),
   by decide⟩

/-- C2: a file link whose declared destination is not absolute is resolved to
exactly that declared destination, whatever the source path, mod name or
download id are; the engine then copies to it under the mod destination
directory. -/
theorem c2_relative_destination_verbatim (mod : IModEntry) (file : IFileEntry)
    (h : jsIsAbsolute file.fileDestination = false) :
    resolveRootFilePath mod file = some file.fileDestination := by
  simp [resolveRootFilePath, h]

/-- C2 (witness): the relative destination "textures/a.dds" is used verbatim. -/
theorem c2_relative_destination_verbatim_witness :
    jsIsAbsolute relFile.fileDestination = false ∧
    resolveRootFilePath fooMod relFile = some relFile.fileDestination :=
  ⟨by decide, c2_relative_destination_verbatim fooMod relFile (by decide)⟩

set_option maxRecDepth 8192 in
/-- C3: a manifest whose root element is present but whose version attribute
differs from "0.3.0.0" is rejected as Unsupported with the upgrade
instruction in the message; an absent root element is rejected as Malformed;
a supported manifest without mod records is rejected as Empty. In each case
the parser rejects, so no entries are produced. -/
theorem c3_manifest_rejections (env : ParserEnv) (vip : String) (doc : NmmManifest) :
    (∀ fv, doc.activator = some fv → fv ≠ some "0.3.0.0" →
      parseModEntries env vip doc =
        .error { kind := .Unsupported, message := unsupportedMessage } ∧
      jsIndexOf unsupportedMessage "upgrade your NMM" ≠ none) ∧
    (doc.activator = none →
      parseModEntries env vip doc =
        .error { kind := .Malformed, message := malformedMessage }) ∧
    (doc.activator = some (some "0.3.0.0") → doc.modInfos = [] →
      parseModEntries env vip doc =
        .error { kind := .Empty, message := emptyMessage }) := by
  refine ⟨?_, ?_, ?_⟩
  · intro fv h1 h2
    refine ⟨?_, by decide⟩
    simp only [parseModEntries, h1]
    rw [if_pos h2]
  · intro h
    simp [parseModEntries, h]
  · intro h1 h2
    simp [parseModEntries, h1, h2]

set_option maxRecDepth 8192 in
/-- C3 (witness): the three rejections at concrete manifests. -/
theorem c3_manifest_rejections_witness :
    (parseModEntries hashFailParserEnv "vip"
        { activator := some (some "0.2.0.0"), modInfos := [sampleModInfo] } =
      .error { kind := .Unsupported, message := unsupportedMessage } ∧
      jsIndexOf unsupportedMessage "upgrade your NMM" ≠ none) ∧
    parseModEntries hashFailParserEnv "vip" { activator := none, modInfos := [sampleModInfo] } =
      .error { kind := .Malformed, message := malformedMessage } ∧
    parseModEntries hashFailParserEnv "vip" { activator := some (some "0.3.0.0"), modInfos := [] } =
      .error { kind := .Empty, message := emptyMessage } :=
  ⟨(c3_manifest_rejections hashFailParserEnv "vip"
      { activator := some (some "0.2.0.0"), modInfos := [sampleModInfo] }).1
        (some "0.2.0.0") rfl (by decide),
   (c3_manifest_rejections hashFailParserEnv "vip"
      { activator := none, modInfos := [sampleModInfo] }).2.1 rfl,
   (c3_manifest_rejections hashFailParserEnv "vip"
      { activator := some (some "0.3.0.0"), modInfos := [] }).2.2 rfl rfl⟩

/-- C4: when the directory and per-file phases complete and no file was
transferred, the transfer call still resolves, after asking for the removal
of the mod destination directory; a removal failure is itself appended to the
returned errors as a note and the result otherwise carries the accumulated
state. -/
theorem c4_no_transfer_cleans_destination (env : FsEnv) (mod : IModEntry)
    (nmmVirtualPath nmmLinkPath installPath : String) (keepSource : Bool)
    (st : TransferState)
    (hdirs : ensureDirs env (destDirectories (pjoin installPath mod.vortexId) mod.fileEntries) = none)
    (hfiles : transferFiles env keepSource nmmVirtualPath (pjoin installPath mod.vortexId) mod
      { hasTransferredFiles := false, errors := [] } mod.fileEntries = .ok st)
    (hflag : st.hasTransferredFiles = false) :
    ∃ r, transferUnpackedMod env mod nmmVirtualPath nmmLinkPath installPath keepSource = .ok r ∧
      ((env.removeAsync (pjoin installPath mod.vortexId) = none ∧ r.errors = st.errors) ∨
       (∃ e, env.removeAsync (pjoin installPath mod.vortexId) = some e ∧
         r.errors = st.errors ++ [cleanupMessage e])) := by
  refine ⟨finishTransfer env (pjoin installPath mod.vortexId) st, ?_, ?_⟩
  · simp only [transferUnpackedMod, hdirs, hfiles]
  · unfold finishTransfer
    rw [hflag]
    cases hrem : env.removeAsync (pjoin installPath mod.vortexId) with
    | none => exact Or.inl ⟨rfl, by simp⟩
    | some e => exact Or.inr ⟨e, rfl, by simp⟩

/-- C4 (witness): a mod whose single file fails root resolution transfers
nothing; with a succeeding removal the call resolves and the errors carry
only the per-file failure. -/
theorem c4_no_transfer_cleans_destination_witness :
    ∃ r, transferUnpackedMod c9Env c9Mod "virt" "link" "inst" true = .ok r ∧
      ((c9Env.removeAsync (pjoin "inst" c9Mod.vortexId) = none ∧
        r.errors = [c9File.fileSource ++ " - " ++ dataInvalidMessage]) ∨
       (∃ e, c9Env.removeAsync (pjoin "inst" c9Mod.vortexId) = some e ∧
         r.errors = [c9File.fileSource ++ " - " ++ dataInvalidMessage] ++ [cleanupMessage e])) :=
  c4_no_transfer_cleans_destination c9Env c9Mod "virt" "link" "inst" true
    { hasTransferredFiles := false,
      errors := [c9File.fileSource ++ " - " ++ dataInvalidMessage] }
    (by decide) (by decide) rfl

/-- C7 (code bug, evaluated): the file is absent under the primary root (the
copy from there rejects with ENOENT), the fallback root "link" is configured
and holds the file (the copy from there succeeds), yet the transfer call
rejects with the ENOENT error instead of retrying: the `.catch` holding the
retry is attached to the `Promise.reject(DataInvalid)` branch of the
conditional, not to the copy operation. -/
theorem c7_enoent_rejects_without_fallback_retry :
    resolveRootFilePath fooMod relFile = some relFile.fileDestination ∧
    c7Env.copyAsync (pjoin "virt" relFile.fileSource)
      (pjoin (pjoin "inst" fooMod.vortexId) relFile.fileDestination) = some enoentError ∧
    enoentError.code = some "ENOENT" ∧
    ("link" : String) ≠ "" ∧
    c7Env.copyAsync (pjoin "link" relFile.fileSource)
      (pjoin (pjoin "inst" fooMod.vortexId) relFile.fileDestination) = none ∧
    transferUnpackedMod c7Env fooMod "virt" "link" "inst" true = .error enoentError := by
  refine ⟨by decide, by decide, rfl, by decide, by decide, by decide⟩

/-- C8: a record whose archive hash computation fails still yields its entry
in the parser output, with the hash left unset. -/
theorem c8_hash_failure_keeps_entry (env : ParserEnv) (vip : String)
    (doc : NmmManifest) (m : ModInfo)
    (hact : doc.activator = some (some "0.3.0.0"))
    (hne : doc.modInfos ≠ [])
    (hmem : m ∈ doc.modInfos)
    (hhash : env.genHash (pjoin m.modFilePath m.modFileName) = none) :
    ∃ l, parseModEntries env vip doc = .ok l ∧
      parseRecord env vip m ∈ l ∧ (parseRecord env vip m).archiveMD5 = none := by
  refine ⟨doc.modInfos.map (parseRecord env vip), ?_, List.mem_map_of_mem _ hmem, ?_⟩
  · simp [parseModEntries, hact, hne]
  · simp [parseRecord, hhash]

/-- C8 (witness): a failing hash leaves `archiveMD5` unset on the returned
entry of `sampleManifest`. -/
theorem c8_hash_failure_keeps_entry_witness :
    ∃ l, parseModEntries hashFailParserEnv "vip" sampleManifest = .ok l ∧
      parseRecord hashFailParserEnv "vip" sampleModInfo ∈ l ∧
      (parseRecord hashFailParserEnv "vip" sampleModInfo).archiveMD5 = none :=
  c8_hash_failure_keeps_entry hashFailParserEnv "vip" sampleManifest sampleModInfo
    rfl (by decide) (by decide) rfl

/-- C9 (code bug, evaluated): `c9Mod` suffers a file-transfer failure (its
transfer resolves with one recorded error) and an archive-transfer failure,
yet `importMods` returns `["mymod.7z"]` — the archive filename — and the mod
display name "My Mod" appears nowhere: the `failed.length > 0` guard reads a
property absent from the transfer result, and the archive handler pushes
`mod.modFilename` instead of the display name. -/
theorem c9_failure_list_misses_display_name :
    transferUnpackedMod c9Env c9Mod "virt" "link" "inst" true =
      .ok { hasTransferredFiles := false,
            errors := [c9File.fileSource ++ " - " ++ dataInvalidMessage] } ∧
    importMods c9Env "virt" "link" "inst" "down" true [c9Mod] = .ok ["mymod.7z"] ∧
    c9Mod.modName = "My Mod" ∧
    ("My Mod" : String) ∉ (["mymod.7z"] : List String) := by
  refine ⟨by decide, by decide, rfl, by decide⟩

/-- C10: a missing, non-numeric or zero `downloadId` attribute parses to an
unset download id on the entry, and a mod without a download id can never
resolve an absolute-destination file link through the download-id fallback
(name absent from the source path means resolution fails). -/
theorem c10_falsy_download_id_never_used (attr : Option String) :
    downloadIdOfAttr none = none ∧
    (jsParseIntAttr attr = none → downloadIdOfAttr attr = none) ∧
    (jsParseIntAttr attr = some 0 → downloadIdOfAttr attr = none) ∧
    downloadIdOfAttr (some "0") = none ∧
    (∀ env vip m, (parseRecord env vip m).downloadId = downloadIdOfAttr m.downloadId) ∧
    (∀ mod file, mod.downloadId = none → jsIsAbsolute file.fileDestination = true →
      jsIndexOf file.fileSource mod.modName = none →
      resolveRootFilePath mod file = none) := by
  refine ⟨rfl, ?_, ?_, by decide, fun env vip m => rfl, ?_⟩
  · intro h
    simp [downloadIdOfAttr, h]
  · intro h
    simp [downloadIdOfAttr, h]
  · intro mod file h1 h2 h3
    simp [resolveRootFilePath, h1, h2, h3]

/-- C10 (witness): the attribute values `null`, "x" and "0" all yield an
unset download id, and `c9Mod` (no download id, name absent from the source)
fails root resolution. -/
theorem c10_falsy_download_id_never_used_witness :
    downloadIdOfAttr (some "x") = none ∧
    downloadIdOfAttr (some "0") = none ∧
    resolveRootFilePath c9Mod c9File = none :=
  ⟨(c10_falsy_download_id_never_used (some "x")).2.1 (by decide),
   (c10_falsy_download_id_never_used (some "x")).2.2.2.1,
   (c10_falsy_download_id_never_used (some "x")).2.2.2.2.2 c9Mod c9File rfl
     (by decide) (by decide)⟩

/-! Category-table lemmas for the reconciliation claims. -/

/-- Auxiliary: looking up the key just set finds the dispatched value. -/
theorem lookupCat_setCat_self (t : CategoryTable) (d : String × CategoryRow) :
    lookupCat (setCat t d) d.1 = some d.2 := by
  induction t with
  | nil => simp [setCat, lookupCat]
  | cons kv rest ih =>
    by_cases h : kv.1 = d.1
    · simp [setCat, h, lookupCat]
    · simp [setCat, h, lookupCat, ih]

/-- Auxiliary: setting a key leaves every other key unchanged. -/
theorem lookupCat_setCat_ne (t : CategoryTable) (d : String × CategoryRow)
    (k : String) (h : k ≠ d.1) :
    lookupCat (setCat t d) k = lookupCat t k := by
  induction t with
  | nil =>
    have hd : d.1 ≠ k := fun he => h he.symm
    simp [setCat, lookupCat, hd]
  | cons kv rest ih =>
    by_cases h2 : kv.1 = d.1
    · have hd : d.1 ≠ k := fun he => h he.symm
      have hkv : kv.1 ≠ k := fun he => hd (h2.symm.trans he)
      simp [setCat, h2, lookupCat, hd, hkv]
    · have hstep : setCat (kv :: rest) d = kv :: setCat rest d := by
        simp [setCat, h2]
      rw [hstep]
      by_cases h3 : kv.1 = k
      · simp [lookupCat, h3]
      · simp [lookupCat, h3, ih]

/-- Auxiliary: dispatching the value a key already holds leaves the table
unchanged. -/
theorem setCat_lookup_self (t : CategoryTable) (d : String × CategoryRow)
    (h : lookupCat t d.1 = some d.2) :
    setCat t d = t := by
  induction t with
  | nil => simp [lookupCat] at h
  | cons kv rest ih =>
    by_cases h2 : kv.1 = d.1
    · have hv : kv.2 = d.2 := by
        simpa [lookupCat, h2] using h
      have hkv : kv = d := Prod.ext h2 hv
      simp [setCat, h2, hkv]
    · have hrest : lookupCat rest d.1 = some d.2 := by
        simpa [lookupCat, h2] using h
      simp [setCat, h2, ih hrest]

/-- Auxiliary: two dispatches to the same key collapse to the second. -/
theorem setCat_absorb (t : CategoryTable) (d0 d1 : String × CategoryRow)
    (h : d0.1 = d1.1) :
    setCat (setCat t d0) d1 = setCat t d1 := by
  induction t with
  | nil => simp [setCat, h]
  | cons kv rest ih =>
    by_cases h2 : kv.1 = d0.1
    · simp [setCat, h2, h2.trans h, h]
    · have h3 : kv.1 ≠ d1.1 := fun he => h2 (he.trans h.symm)
      simp [setCat, h2, h3, ih]

/-- Auxiliary: applying a list of at most two dispatches a second time
changes nothing. -/
theorem applyDispatches_twice (t : CategoryTable)
    (ds : List (String × CategoryRow)) (h : ds.length ≤ 2) :
    applyDispatches (applyDispatches t ds) ds = applyDispatches t ds := by
  match ds with
  | [] => rfl
  | [d] =>
    show setCat (setCat t d) d = setCat t d
    exact setCat_absorb t d d rfl
  | [d0, d1] =>
    show setCat (setCat (setCat (setCat t d0) d1) d0) d1 = setCat (setCat t d0) d1
    by_cases hk : d0.1 = d1.1
    · rw [setCat_absorb t d0 d1 hk, setCat_absorb (setCat t d1) d0 d1 hk,
        setCat_absorb t d1 d1 rfl]
    · have l0 : lookupCat (setCat (setCat t d0) d1) d0.1 = some d0.2 := by
        rw [lookupCat_setCat_ne (setCat t d0) d1 d0.1 hk]
        exact lookupCat_setCat_self t d0
      rw [setCat_lookup_self (setCat (setCat t d0) d1) d0 l0,
        setCat_lookup_self (setCat (setCat t d0) d1) d1
          (lookupCat_setCat_self (setCat t d0) d1)]
  | _ :: _ :: _ :: _ => simp at h

/-- Auxiliary: a single `makeVortexCategory` call emits at most two
dispatches (the lazily created root plus the allocation). -/
theorem makeVortexCategory_dispatches_len (s : CategoryTable) (nm : String) :
    (makeVortexCategory s nm).2.length ≤ 2 := by
  unfold makeVortexCategory
  cases h : s.find? (fun kv => kv.2.name == nm) with
  | some kv => simp
  | none =>
    by_cases h2 : lookupCat s "nmm_0" = none <;> simp [h2]

/-- Auxiliary: the ids handed back over a run, with the accumulator
generalised: every call reads the same snapshot, so repeated calls with one
name return one id. -/
theorem runReconciliations_fst_aux (s : CategoryTable) (nm : String) (n : Nat)
    (acc : List String × CategoryTable) :
    (List.foldl
      (fun acc2 nm2 =>
        let r := makeVortexCategory s nm2
        (acc2.1 ++ [r.1], applyDispatches acc2.2 r.2))
      acc (List.replicate n nm)).1 =
    acc.1 ++ List.replicate n (makeVortexCategory s nm).1 := by
  induction n generalizing acc with
  | zero => simp
  | succ k ih =>
    rw [List.replicate_succ, List.foldl_cons, ih]
    simp [List.replicate_succ]

/-- Auxiliary: the table component of a run only depends on the previous
table. -/
theorem runReconciliations_snd_aux (s : CategoryTable) (names : List String)
    (acc : List String × CategoryTable) :
    (List.foldl
      (fun acc2 nm2 =>
        let r := makeVortexCategory s nm2
        (acc2.1 ++ [r.1], applyDispatches acc2.2 r.2))
      acc names).2 =
    List.foldl (fun t nm2 => applyDispatches t (makeVortexCategory s nm2).2) acc.2 names := by
  induction names generalizing acc with
  | nil => rfl
  | cons nm2 rest ih => rw [List.foldl_cons, List.foldl_cons, ih]

/-- Auxiliary: folding the dispatches of one name over a table one-or-more
times equals applying them once. -/
theorem foldl_apply_replicate (s : CategoryTable) (nm : String) (n : Nat)
    (t : CategoryTable) :
    List.foldl (fun t2 nm2 => applyDispatches t2 (makeVortexCategory s nm2).2) t
      (List.replicate (n + 1) nm) =
    applyDispatches t (makeVortexCategory s nm).2 := by
  induction n generalizing t with
  | zero => rfl
  | succ k ih =>
    rw [List.replicate_succ, List.foldl_cons, ih]
    exact applyDispatches_twice t _ (makeVortexCategory_dispatches_len s nm)

/-- C6: within one run, reconciling a previously-unseen category name two or
more times always hands back the same id — the single allocated
`nmm_<firstFreeId>` — and the store after all the repeats equals the store
after the first reconciliation: no duplicate node is created for the name. -/
theorem c6_repeated_unseen_name_stable (snapshot : CategoryTable) (name : String)
    (n : Nat) (h : snapshot.find? (fun kv => kv.2.name == name) = none) :
    (runReconciliations snapshot (List.replicate (n + 1) name)).1 =
      List.replicate (n + 1) ("nmm_" ++ toString (firstFreeId snapshot)) ∧
    (runReconciliations snapshot (List.replicate (n + 1) name)).2 =
      (runReconciliations snapshot [name]).2 := by
  constructor
  · rw [show runReconciliations snapshot (List.replicate (n + 1) name) =
      List.foldl
        (fun acc2 nm2 =>
          let r := makeVortexCategory snapshot nm2
          (acc2.1 ++ [r.1], applyDispatches acc2.2 r.2))
        ([], snapshot) (List.replicate (n + 1) name) from rfl]
    rw [runReconciliations_fst_aux]
    have hid : (makeVortexCategory snapshot name).1 =
        "nmm_" ++ toString (firstFreeId snapshot) := by
      simp [makeVortexCategory, h]
    rw [hid]
    simp
  · rw [show runReconciliations snapshot (List.replicate (n + 1) name) =
      List.foldl
        (fun acc2 nm2 =>
          let r := makeVortexCategory snapshot nm2
          (acc2.1 ++ [r.1], applyDispatches acc2.2 r.2))
        ([], snapshot) (List.replicate (n + 1) name) from rfl]
    rw [runReconciliations_snd_aux, foldl_apply_replicate]
    rw [show runReconciliations snapshot [name] =
      List.foldl
        (fun acc2 nm2 =>
          let r := makeVortexCategory snapshot nm2
          (acc2.1 ++ [r.1], applyDispatches acc2.2 r.2))
        ([], snapshot) [name] from rfl]
    rw [runReconciliations_snd_aux]
    rfl

/-- C6 (witness): two reconciliations of the unseen name "A" against an empty
snapshot both return "nmm_1" and leave the store of a single
reconciliation. -/
theorem c6_repeated_unseen_name_stable_witness :
    (runReconciliations [] (List.replicate 2 "A")).1 =
      List.replicate 2 ("nmm_" ++ toString (firstFreeId [])) ∧
    (runReconciliations [] (List.replicate 2 "A")).2 =
      (runReconciliations [] ["A"]).2 :=
  c6_repeated_unseen_name_stable [] "A" 1 rfl

/-- C5 (code bug, evaluated): two first-time reconciliations of the distinct
previously-unseen names "A" and "B" within one run both return "nmm_1" — the
captured snapshot never reflects the first dispatch — and the second
allocation overwrites the node of the first, whose name "A" is gone from the
final store. -/
theorem c5_distinct_unseen_names_collide :
    ("A" : String) ≠ "B" ∧
    (runReconciliations [] ["A", "B"]).1 = ["nmm_1", "nmm_1"] ∧
    (runReconciliations [] ["A", "B"]).2 =
      [("nmm_0", nmmRootRow),
       ("nmm_1", { name := "B", order := 0, parentCategory := some "nmm_0" })] := by
  refine ⟨by decide, by decide, by decide⟩

end NmmImport
